import Mathlib

/-!
Verification of the Haredo chain-state, message, and consumer-pipeline
specification against the sources in `src/state.ts` (chain state and
`defaultState`) and the consumer integration suite / RPC example.

Components whose implementation files are not part of the provided sources
(`HaredoMessage`, the consumer delivery pipeline, the backoff wiring, the
`utils` helpers) are modelled from the specification; each such definition
carries a doc comment starting with `Modelled from the spec:`.
-/

/- ## Message handled-state machine -/

/-- Modelled from the spec: the per-message handled state machine of
`HaredoMessage` (src/haredo-message.ts, not included in the sources):
`New -> (Acked | Nacked[requeue] | Replied)`. -/
inductive MessageState where
  | new : MessageState
  | acked : MessageState
  | nacked (requeue : Bool) : MessageState
  | replied : MessageState
deriving DecidableEq, Repr

/-- Whether the message state is still the initial `New` state. -/
def MessageState.isNew : MessageState → Bool
  | .new => true
  | _ => false

/-- Modelled from the spec: the mutable view of a received `HaredoMessage`:
its terminal state plus whether a reply has been sent. -/
structure MsgModel where
  state : MessageState
  replySent : Bool
deriving DecidableEq, Repr

/-- A freshly wrapped delivery: state `New`, no reply sent. -/
def initialMessage : MsgModel := { state := MessageState.new, replySent := false }

/-- Modelled from the spec: `isHandled()` returns true iff the state is not
`New` or a reply has been sent. -/
def isHandled (m : MsgModel) : Bool := !m.state.isNew || m.replySent

/-- The three terminal actions a user or middleware can take on a message. -/
inductive TerminalOp where
  | ack : TerminalOp
  | nack (requeue : Bool) : TerminalOp
  | reply : TerminalOp
deriving DecidableEq, Repr

/-- Calls actually reaching the broker channel (`basic.ack`, `basic.nack`,
publish of a reply). -/
inductive BrokerEvent where
  | ack : BrokerEvent
  | nack (requeue : Bool) : BrokerEvent
  | reply : BrokerEvent
deriving DecidableEq, Repr

/-- Modelled from the spec: performing one of `ack`/`nack`/`reply` on a
message. On an unhandled message it performs the broker call and records the
terminal transition; on a handled message it is a no-op producing no broker
call. -/
def applyOp (o : TerminalOp) (m : MsgModel) : MsgModel × List BrokerEvent :=
  if isHandled m then (m, [])
  else
    match o with
    | TerminalOp.ack =>
        ({ state := MessageState.acked, replySent := m.replySent }, [BrokerEvent.ack])
    | TerminalOp.nack rq =>
        ({ state := MessageState.nacked rq, replySent := m.replySent }, [BrokerEvent.nack rq])
    | TerminalOp.reply =>
        ({ state := MessageState.replied, replySent := true }, [BrokerEvent.reply])

/-- Performing a sequence of terminal actions, accumulating broker calls. -/
def applyOps : List TerminalOp → MsgModel → MsgModel × List BrokerEvent
  | [], m => (m, [])
  | o :: os, m =>
    let r := applyOp o m
    let r2 := applyOps os r.1
    (r2.1, r.2 ++ r2.2)

/- ## Chain state and `defaultState` (from src/state.ts) -/

/-- Queue descriptor; `src/queue.ts` is not among the sources and only the
identity of the value matters for `defaultState`, which passes it through. -/
structure Queue where
  name : String
deriving DecidableEq, Repr

/-- Exchange descriptor; `src/exchange.ts` is not among the sources and only
the identity of the value matters here. -/
structure Exchange where
  name : String
deriving DecidableEq, Repr

/-- Opaque handle standing for a `ConnectionManager` instance. -/
structure ConnectionManagerRef where
  id : Nat
deriving DecidableEq, Repr

/-- Opaque handle standing for a middleware function value. -/
structure MiddlewareRef where
  id : Nat
deriving DecidableEq, Repr

/-- `StateExchangeCollection` from src/state.ts: an exchange together with
its binding patterns. -/
structure StateExchangeCollection where
  exchange : Exchange
  patterns : List String
deriving DecidableEq, Repr

/-- `Partial<HaredoChainState>` from src/state.ts: every field optional
(`none` models an absent / `undefined` field of the TypeScript record). -/
structure HaredoChainStateOpt where
  autoAck : Option Bool := none
  prefetch : Option Nat := none
  queue : Option Queue := none
  bindings : Option (List StateExchangeCollection) := none
  exchange : Option Exchange := none
  failThreshold : Option Nat := none
  failSpan : Option Nat := none
  failTimeout : Option Nat := none
  reestablish : Option Bool := none
  json : Option Bool := none
  confirm : Option Bool := none
  skipSetup : Option Bool := none
  middleware : Option (List MiddlewareRef) := none
  autoReply : Option Bool := none
  connectionManager : Option ConnectionManagerRef := none
  priority : Option Nat := none
  noAck : Option Bool := none
  exclusive : Option Bool := none
deriving DecidableEq, Repr

/-- Modelled from the spec: `defaultTo` from src/utils.ts (not among the
sources) returns the given value unless it is undefined, in which case it
returns the default. -/
def defaultTo (value : Option α) (d : α) : α := value.getD d

/-- Modelled from the spec: `defaultToTrue` from src/utils.ts defaults an
undefined boolean to `true`. -/
def defaultToTrue (value : Option Bool) : Bool := defaultTo value true

/-- JavaScript `x || d` on an optional number: undefined and `0` are falsy. -/
def jsOrNat (v : Option Nat) (d : Nat) : Nat :=
  match v with
  | none => d
  | some n => if n = 0 then d else n

/-- JavaScript `xs || []` on an optional array: any array (even empty) is
truthy, undefined yields `[]`. `[].concat` then copies it (value-level view;
the aliasing side is modelled separately on a heap). -/
def jsOrEmptyList (v : Option (List α)) : List α := v.getD []

/-- `defaultState` from src/state.ts, field for field: defaulted fields are
wrapped, pass-through fields are copied, and fields absent from the returned
record literal (`exchange`, `connectionManager`, `priority`, `noAck`,
`exclusive`) stay at the structure default `none`. -/
def defaultState (newState : HaredoChainStateOpt) : HaredoChainStateOpt :=
  { autoAck := some (defaultToTrue newState.autoAck)
    autoReply := some (defaultTo newState.autoReply false)
    queue := newState.queue
    bindings := some (jsOrEmptyList newState.bindings)
    prefetch := some (jsOrNat newState.prefetch 0)
    reestablish := some (defaultToTrue newState.reestablish)
    failSpan := newState.failSpan
    failThreshold := newState.failThreshold
    failTimeout := newState.failTimeout
    json := some (defaultToTrue newState.json)
    confirm := newState.confirm
    skipSetup := newState.skipSetup
    middleware := some (jsOrEmptyList newState.middleware) }

/- ## Heap view of the bindings array (for the aliasing behaviour of
`[].concat(newState.bindings || [])` in `defaultState`) -/

/-- A reference to a mutable JavaScript array of bindings. -/
structure ArrayRef where
  id : Nat
deriving DecidableEq, Repr

/-- The store of live bindings arrays; a reference is an index into it. -/
structure BindingsHeap where
  cells : List (List StateExchangeCollection)
deriving DecidableEq, Repr

/-- Read the array a reference points to. -/
def readArr (h : BindingsHeap) (r : ArrayRef) : List StateExchangeCollection :=
  (h.cells[r.id]?).getD []

/-- Mutate the array a reference points to (JavaScript in-place update). -/
def writeArr (h : BindingsHeap) (r : ArrayRef) (v : List StateExchangeCollection) :
    BindingsHeap :=
  { cells := h.cells.set r.id v }

/-- Allocate a fresh array holding `v`, as `[].concat(v)` does. -/
def allocArr (h : BindingsHeap) (v : List StateExchangeCollection) :
    BindingsHeap × ArrayRef :=
  ({ cells := h.cells ++ [v] }, { id := h.cells.length })

/-- The bindings step of `defaultState` at the heap level:
`[].concat(newState.bindings || [])` allocates a fresh array whose contents
copy the input array (or are empty when the input is undefined). -/
def defaultStateBindings (h : BindingsHeap) (input : Option ArrayRef) :
    BindingsHeap × ArrayRef :=
  allocArr h (match input with
    | none => []
    | some r => readArr h r)

/- ## Helper lemmas about the message state machine -/

theorem applyOp_of_handled (o : TerminalOp) (m : MsgModel) (h : isHandled m = true) :
    applyOp o m = (m, []) := by
  simp [applyOp, h]

theorem isHandled_applyOp (o : TerminalOp) (m : MsgModel) :
    isHandled (applyOp o m).1 = true := by
  by_cases h : isHandled m = true
  · rw [applyOp_of_handled o m h]; exact h
  · simp only [applyOp, if_neg h]
    cases o <;> simp [isHandled, MessageState.isNew]

theorem applyOps_of_handled (ops : List TerminalOp) (m : MsgModel) (h : isHandled m = true) :
    applyOps ops m = (m, []) := by
  induction ops with
  | nil => rfl
  | cons o os ih =>
      simp [applyOps, applyOp_of_handled o m h, ih]

/-- C1: for every message, after the first of ack/nack/reply returns the
message is handled; any further sequence of ack/nack/reply calls is a no-op
(no state change, no broker call) and the message stays handled forever. -/
theorem c1_handled_state_monotone (m : MsgModel) (o : TerminalOp) (ops : List TerminalOp) :
    isHandled (applyOp o m).1 = true
      ∧ applyOps ops (applyOp o m).1 = ((applyOp o m).1, [])
      ∧ isHandled (applyOps ops (applyOp o m).1).1 = true := by
  refine ⟨isHandled_applyOp o m, ?_, ?_⟩
  · exact applyOps_of_handled ops _ (isHandled_applyOp o m)
  · rw [applyOps_of_handled ops _ (isHandled_applyOp o m)]
    exact isHandled_applyOp o m

/-- C2: `defaultState` defaults `autoAck` to true, `autoReply` to false,
`prefetch` to 0, `reestablish` to true and `json` to true whenever the input
leaves them undefined, and keeps the given value otherwise. -/
theorem c2_defaultState_defaults (s : HaredoChainStateOpt) :
    (defaultState s).autoAck = some (s.autoAck.getD true)
      ∧ (defaultState s).autoReply = some (s.autoReply.getD false)
      ∧ (defaultState s).prefetch = some (s.prefetch.getD 0)
      ∧ (defaultState s).reestablish = some (s.reestablish.getD true)
      ∧ (defaultState s).json = some (s.json.getD true) := by
  refine ⟨rfl, rfl, ?_, rfl, rfl⟩
  simp only [defaultState, jsOrNat]
  cases h : s.prefetch with
  | none => rfl
  | some n =>
      by_cases hn : n = 0 <;> simp [hn]

/-- C10: `defaultState` returns a record with no `exchange`,
`connectionManager`, `priority`, `noAck` or `exclusive` field even when the
input provides them, and passes `failSpan`, `failThreshold`, `failTimeout`,
`confirm` and `skipSetup` through unchanged (possibly undefined). -/
theorem c10_defaultState_dropped_and_passthrough (s : HaredoChainStateOpt) :
    (defaultState s).exchange = none
      ∧ (defaultState s).connectionManager = none
      ∧ (defaultState s).priority = none
      ∧ (defaultState s).noAck = none
      ∧ (defaultState s).exclusive = none
      ∧ (defaultState s).failSpan = s.failSpan
      ∧ (defaultState s).failThreshold = s.failThreshold
      ∧ (defaultState s).failTimeout = s.failTimeout
      ∧ (defaultState s).confirm = s.confirm
      ∧ (defaultState s).skipSetup = s.skipSetup :=
  ⟨rfl, rfl, rfl, rfl, rfl, rfl, rfl, rfl, rfl, rfl⟩

/-- C9: `defaultState` never aliases the input bindings array: the returned
state's bindings is a freshly allocated array whose contents equal the
input's, and mutating the fresh array leaves the input state's bindings
unchanged. -/
theorem c9_defaultState_bindings_fresh (h : BindingsHeap) (r : ArrayRef)
    (hv : r.id < h.cells.length) :
    (defaultStateBindings h (some r)).2 ≠ r
      ∧ readArr (defaultStateBindings h (some r)).1 (defaultStateBindings h (some r)).2
          = readArr h r
      ∧ ∀ v, readArr
            (writeArr (defaultStateBindings h (some r)).1 (defaultStateBindings h (some r)).2 v)
            r
          = readArr h r := by
  refine ⟨?_, ?_, ?_⟩
  · intro hEq
    have : (defaultStateBindings h (some r)).2.id = r.id := by rw [hEq]
    simp only [defaultStateBindings, allocArr] at this
    omega
  · simp [defaultStateBindings, allocArr, readArr, List.getElem?_concat_length]
  · intro v
    simp only [defaultStateBindings, allocArr, readArr, writeArr]
    rw [List.getElem?_set_ne (by omega)]
    rw [List.getElem?_append_left hv]

/-- Witness for C9 at a concrete heap with a single one-element bindings
array. -/
theorem c9_defaultState_bindings_fresh_witness :
    let h : BindingsHeap := { cells := [[{ exchange := { name := "e" }, patterns := ["p"] }]] }
    let r : ArrayRef := { id := 0 }
    r.id < h.cells.length
      ∧ ((defaultStateBindings h (some r)).2 ≠ r
          ∧ readArr (defaultStateBindings h (some r)).1 (defaultStateBindings h (some r)).2
              = readArr h r
          ∧ ∀ v, readArr
                (writeArr (defaultStateBindings h (some r)).1
                  (defaultStateBindings h (some r)).2 v)
                r
              = readArr h r) :=
  ⟨by decide,
    c9_defaultState_bindings_fresh
      { cells := [[{ exchange := { name := "e" }, patterns := ["p"] }]] }
      { id := 0 } (by decide)⟩

/- ## Consumer delivery pipeline (modelled from the spec) -/

/-- Observable events of one delivery's pipeline run: middleware layer
entries, `next` invocations (explicit by the middleware, or automatic by the
runtime), the user-handler invocation, and broker calls. -/
inductive PipeEvent where
  | mwStart (i : Nat) : PipeEvent
  | nextExplicit (i : Nat) : PipeEvent
  | nextAuto (i : Nat) : PipeEvent
  | handlerRun : PipeEvent
  | broker (e : BrokerEvent) : PipeEvent
deriving DecidableEq, Repr

/-- Description of one middleware layer's behaviour on a delivery: the
terminal actions it performs on the message, whether it invokes `next`
itself, and whether it throws (after its actions, without calling `next`). -/
structure MWBehavior where
  preOps : List TerminalOp
  callsNext : Bool
  throws : Bool
deriving DecidableEq, Repr

/-- Description of the user handler's behaviour on a delivery: the terminal
actions it performs and whether it throws. -/
structure HandlerBehavior where
  ops : List TerminalOp
  throws : Bool
deriving DecidableEq, Repr

/-- Modelled from the spec: the middleware chain of `Consumer` /
`applyMiddleware` (src/consumer.ts, not included in the sources). Layers run
in declaration order; `next` (whether invoked explicitly or automatically by
the runtime after the layer settles without calling it) runs the downstream
chain only when the message is still unhandled; a layer that leaves the
message handled and does not call `next` gets no automatic `next`; a throwing
layer aborts the chain with a failure flag. The innermost step is the user
handler; its `throws` flag is the failure flag of the whole run. -/
def runLayers (h : HandlerBehavior) : List MWBehavior → Nat → MsgModel →
    MsgModel × List PipeEvent × Bool
  | [], _, m =>
    let r := applyOps h.ops m
    (r.1, PipeEvent.handlerRun :: r.2.map PipeEvent.broker, h.throws)
  | mw :: rest, i, m =>
    let r1 := applyOps mw.preOps m
    if mw.throws then
      (r1.1, PipeEvent.mwStart i :: r1.2.map PipeEvent.broker, true)
    else if isHandled r1.1 then
      (r1.1,
        PipeEvent.mwStart i :: r1.2.map PipeEvent.broker
          ++ (if mw.callsNext then [PipeEvent.nextExplicit i] else []),
        false)
    else
      let r2 := runLayers h rest (i + 1) r1.1
      (r2.1,
        PipeEvent.mwStart i :: r1.2.map PipeEvent.broker
          ++ (if mw.callsNext then PipeEvent.nextExplicit i else PipeEvent.nextAuto i)
            :: r2.2.1,
        r2.2.2)

/-- The broker calls among a list of pipeline events. -/
def brokerEventsOf (evs : List PipeEvent) : List BrokerEvent :=
  evs.filterMap (fun e => match e with
    | PipeEvent.broker b => some b
    | _ => none)

/-- Calls made on the consumer's Backoff instance. -/
inductive BackoffCall where
  | take : BackoffCall
  | ack : BackoffCall
  | pass : BackoffCall
  | nack : BackoffCall
  | fail : BackoffCall
deriving DecidableEq, Repr

/-- One Backoff `ack` notification per broker ack that happened. -/
def ackCallsOf (evs : List BrokerEvent) : List BackoffCall :=
  evs.filterMap (fun e => match e with
    | BrokerEvent.ack => some BackoffCall.ack
    | _ => none)

/-- Result of processing one delivery: final message state, pipeline/broker
events, and the calls made on the Backoff. -/
structure DeliveryResult where
  message : MsgModel
  events : List PipeEvent
  backoffCalls : List BackoffCall
deriving DecidableEq, Repr

/-- Modelled from the spec: one delivery through `Consumer.handleMessage`
(src/consumer.ts, not included in the sources). The Backoff `take` gate runs
first; then the middleware chain and user handler; on failure the message is
nacked without requeue unless already handled and the Backoff gets `nack`
then `fail`; on success the message is auto-acked when `autoAck` is set and
the Backoff gets `pass`; every effective broker ack is also reported to the
Backoff as `ack`. -/
def handleDelivery (autoAck : Bool) (layers : List MWBehavior) (h : HandlerBehavior) :
    DeliveryResult :=
  let r := runLayers h layers 0 initialMessage
  let m1 := r.1
  let evs := r.2.1
  let failed := r.2.2
  if failed then
    let rn := applyOp (TerminalOp.nack false) m1
    { message := rn.1
      events := evs ++ rn.2.map PipeEvent.broker
      backoffCalls := BackoffCall.take ::
        ackCallsOf (brokerEventsOf evs) ++ [BackoffCall.nack, BackoffCall.fail] }
  else if autoAck then
    let ra := applyOp TerminalOp.ack m1
    { message := ra.1
      events := evs ++ ra.2.map PipeEvent.broker
      backoffCalls := BackoffCall.take ::
        ackCallsOf (brokerEventsOf evs ++ ra.2) ++ [BackoffCall.pass] }
  else
    { message := m1
      events := evs
      backoffCalls := BackoffCall.take ::
        ackCallsOf (brokerEventsOf evs) ++ [BackoffCall.pass] }

/-- The stub-backoff scenario of the integration suite: a handler that either
resolves or rejects, no middleware. -/
def deliveryOutcomeHandler (ok : Bool) : HandlerBehavior :=
  { ops := [], throws := !ok }

/-- Backoff calls produced by a sequence of deliveries (`true` = the handler
succeeds, `false` = it fails), on a consumer with default `autoAck = true`
and no middleware. -/
def backoffTrace (outcomes : List Bool) : List BackoffCall :=
  (outcomes.map (fun ok =>
    (handleDelivery true [] (deliveryOutcomeHandler ok)).backoffCalls)).flatten

/- ## Pipeline helper lemmas -/

theorem applyOps_of_not_handled (ops : List TerminalOp) (m : MsgModel)
    (h : isHandled (applyOps ops m).1 = false) : applyOps ops m = (m, []) := by
  by_cases hm : isHandled m = true
  · exact applyOps_of_handled ops m hm
  · cases ops with
    | nil => rfl
    | cons o os =>
        exfalso
        have h1 : isHandled (applyOp o m).1 = true := isHandled_applyOp o m
        have h2 : applyOps os (applyOp o m).1 = ((applyOp o m).1, []) :=
          applyOps_of_handled os _ h1
        simp only [applyOps, h2] at h
        rw [h1] at h
        exact Bool.noConfusion h

theorem isHandled_applyOps_ne_nil (ops : List TerminalOp) (m : MsgModel)
    (h : ops ≠ []) : isHandled (applyOps ops m).1 = true := by
  cases ops with
  | nil => exact absurd rfl h
  | cons o os =>
      have h1 : isHandled (applyOp o m).1 = true := isHandled_applyOp o m
      simp only [applyOps, applyOps_of_handled os _ h1]
      exact h1

/-- The per-layer events a run of benign middleware (no terminal action, no
throw) contributes: layer entry followed by its single `next` invocation
(explicit or automatic). -/
def chainEvs : List MWBehavior → Nat → List PipeEvent
  | [], _ => []
  | mw :: rest, i =>
      PipeEvent.mwStart i ::
        (if mw.callsNext then PipeEvent.nextExplicit i else PipeEvent.nextAuto i)
          :: chainEvs rest (i + 1)

theorem runLayers_benign_append (h : HandlerBehavior) (pre rest : List MWBehavior)
    (hb : ∀ mw ∈ pre, mw.throws = false ∧ mw.preOps = []) (i : Nat) (m : MsgModel)
    (hm : isHandled m = false) :
    runLayers h (pre ++ rest) i m =
      ((runLayers h rest (i + pre.length) m).1,
        chainEvs pre i ++ (runLayers h rest (i + pre.length) m).2.1,
        (runLayers h rest (i + pre.length) m).2.2) := by
  induction pre generalizing i with
  | nil => simp [chainEvs]
  | cons mw pre ih =>
      obtain ⟨ht, hp⟩ := hb mw (List.mem_cons_self mw pre)
      have hb' : ∀ mw' ∈ pre, mw'.throws = false ∧ mw'.preOps = [] :=
        fun mw' hmw' => hb mw' (List.mem_cons_of_mem mw hmw')
      have harith : i + 1 + pre.length = i + (mw :: pre).length := by
        simp [List.length_cons]; omega
      simp only [List.cons_append, runLayers, hp, applyOps, ht, if_false, hm,
        Bool.false_eq_true, chainEvs, List.append_eq]
      rw [ih hb' (i + 1), harith]
      simp

theorem runLayers_benign (h : HandlerBehavior) (layers : List MWBehavior)
    (hb : ∀ mw ∈ layers, mw.throws = false ∧ mw.preOps = []) (i : Nat) (m : MsgModel)
    (hm : isHandled m = false) :
    runLayers h layers i m =
      ((applyOps h.ops m).1,
        chainEvs layers i
          ++ PipeEvent.handlerRun :: (applyOps h.ops m).2.map PipeEvent.broker,
        h.throws) := by
  have hx := runLayers_benign_append h layers [] hb i m hm
  rw [List.append_nil] at hx
  rw [hx]
  simp [runLayers]

theorem handlerRun_not_mem_chainEvs (layers : List MWBehavior) (i : Nat) :
    PipeEvent.handlerRun ∉ chainEvs layers i := by
  induction layers generalizing i with
  | nil => simp [chainEvs]
  | cons mw rest ih =>
      cases hnc : mw.callsNext <;> simp [chainEvs, hnc, ih]

theorem brokerEventsOf_chainEvs (layers : List MWBehavior) (i : Nat) :
    brokerEventsOf (chainEvs layers i) = [] := by
  induction layers generalizing i with
  | nil => simp [chainEvs, brokerEventsOf]
  | cons mw rest ih =>
      cases hnc : mw.callsNext <;>
        simp [chainEvs, hnc, brokerEventsOf, List.filterMap_cons] <;>
        simpa [brokerEventsOf] using ih (i + 1)

theorem mwStart_mem_chainEvs_bound (layers : List MWBehavior) (i j : Nat)
    (hmem : PipeEvent.mwStart j ∈ chainEvs layers i) : j < i + layers.length := by
  induction layers generalizing i with
  | nil => simp [chainEvs] at hmem
  | cons mw rest ih =>
      simp only [chainEvs, List.mem_cons] at hmem
      rcases hmem with h1 | h1 | h1
      · simp only [PipeEvent.mwStart.injEq] at h1
        simp only [List.length_cons]
        omega
      · exfalso; revert h1; cases mw.callsNext <;> simp
      · have := ih (i + 1) h1
        simp only [List.length_cons]
        omega

theorem mwStart_mem_chainEvs_of_lt (layers : List MWBehavior) (i j : Nat)
    (hj : j < layers.length) : PipeEvent.mwStart (i + j) ∈ chainEvs layers i := by
  induction layers generalizing i j with
  | nil => simp at hj
  | cons mw rest ih =>
      cases j with
      | zero => simp [chainEvs]
      | succ j =>
          have hj' : j < rest.length := by simpa using hj
          have := ih (i + 1) j hj'
          cases hnc : mw.callsNext <;>
            simp only [chainEvs, hnc, if_true, if_false, List.mem_cons] <;>
            right <;> right <;>
            simpa [Nat.add_assoc, Nat.add_comm, Nat.add_left_comm] using this

/-- Number of occurrences of a pipeline event in an event list. -/
def countEv (x : PipeEvent) : List PipeEvent → Nat
  | [] => 0
  | e :: es => (if e = x then 1 else 0) + countEv x es

theorem countEv_append (x : PipeEvent) (l1 l2 : List PipeEvent) :
    countEv x (l1 ++ l2) = countEv x l1 + countEv x l2 := by
  induction l1 with
  | nil => simp [countEv]
  | cons e es ih => simp [countEv, ih]; omega

theorem countEv_next_lt (layers : List MWBehavior) (i j : Nat) (hj : j < i) :
    countEv (PipeEvent.nextAuto j) (chainEvs layers i) = 0
      ∧ countEv (PipeEvent.nextExplicit j) (chainEvs layers i) = 0 := by
  induction layers generalizing i with
  | nil => simp [chainEvs, countEv]
  | cons mw rest ih =>
      obtain ⟨ha, he⟩ := ih (i + 1) (by omega)
      have hne : i ≠ j := by omega
      cases hnc : mw.callsNext <;>
        simp [chainEvs, countEv, hnc, ha, he, hne]

theorem countEv_next_chainEvs (layers : List MWBehavior) (i k : Nat) (mw : MWBehavior)
    (hk : layers[k]? = some mw) (hnc : mw.callsNext = false) :
    countEv (PipeEvent.nextAuto (i + k)) (chainEvs layers i) = 1
      ∧ countEv (PipeEvent.nextExplicit (i + k)) (chainEvs layers i) = 0 := by
  induction layers generalizing i k with
  | nil => simp at hk
  | cons hd tl ih =>
      cases k with
      | zero =>
          have hhd : hd = mw := by simpa using hk
          subst hhd
          obtain ⟨ha, he⟩ := countEv_next_lt tl (i + 1) i (by omega)
          simp [chainEvs, countEv, hnc, ha, he]
      | succ k =>
          have hk' : tl[k]? = some mw := by simpa using hk
          obtain ⟨ha, he⟩ := ih (i + 1) k hk'
          have harith : i + (k + 1) = i + 1 + k := by omega
          rw [harith]
          have hne : i ≠ i + 1 + k := by omega
          cases h2 : hd.callsNext <;>
            simp [chainEvs, countEv, h2, ha, he, hne]

theorem runLayers_unhandled_no_broker (h : HandlerBehavior) (layers : List MWBehavior)
    (i : Nat) (m : MsgModel) (hm : isHandled m = false)
    (hres : isHandled (runLayers h layers i m).1 = false) :
    brokerEventsOf (runLayers h layers i m).2.1 = [] := by
  induction layers generalizing i m with
  | nil =>
      simp only [runLayers] at hres ⊢
      rw [applyOps_of_not_handled h.ops m hres]
      simp [brokerEventsOf]
  | cons mw rest ih =>
      cases ht : mw.throws with
      | true =>
          simp only [runLayers, ht, if_true] at hres ⊢
          rw [applyOps_of_not_handled mw.preOps m hres]
          simp [brokerEventsOf]
      | false =>
          cases hh : isHandled (applyOps mw.preOps m).1 with
          | true =>
              simp only [runLayers, ht, hh, Bool.false_eq_true, if_false, if_true] at hres
              exact Bool.noConfusion hres
          | false =>
              have hpre : applyOps mw.preOps m = (m, []) :=
                applyOps_of_not_handled mw.preOps m hh
              simp only [runLayers, ht, Bool.false_eq_true, if_false, hpre, hm] at hres ⊢
              have hbr := ih (i + 1) m hm hres
              simp only [brokerEventsOf] at hbr ⊢
              cases hnc : mw.callsNext <;>
                simp [hnc, List.filterMap_cons, hbr]

theorem countEv_eq_zero_of_not_mem (x : PipeEvent) (l : List PipeEvent) (h : x ∉ l) :
    countEv x l = 0 := by
  induction l with
  | nil => rfl
  | cons e es ih =>
      simp only [List.mem_cons, not_or] at h
      obtain ⟨h1, h2⟩ := h
      have he : e ≠ x := fun hx => h1 hx.symm
      simp [countEv, he, ih h2]

theorem handleDelivery_events_shape (autoAck : Bool) (layers : List MWBehavior)
    (h : HandlerBehavior) :
    ∃ extra : List BrokerEvent,
      (handleDelivery autoAck layers h).events
        = (runLayers h layers 0 initialMessage).2.1 ++ extra.map PipeEvent.broker := by
  cases hf : (runLayers h layers 0 initialMessage).2.2 with
  | true =>
      refine ⟨(applyOp (TerminalOp.nack false) (runLayers h layers 0 initialMessage).1).2, ?_⟩
      simp [handleDelivery, hf]
  | false =>
      cases autoAck with
      | true =>
          refine ⟨(applyOp TerminalOp.ack (runLayers h layers 0 initialMessage).1).2, ?_⟩
          simp [handleDelivery, hf]
      | false =>
          refine ⟨[], ?_⟩
          simp [handleDelivery, hf]

/-- C3: with `autoAck = true`, a handler that returns without any terminal
action, and middleware that neither throws nor touches the message, the
delivery's event trace ends in exactly one broker ack, placed after the
handler invocation; the ack is the only broker call of the delivery. -/
theorem c3_autoAck_acks_exactly_once (layers : List MWBehavior) (h : HandlerBehavior)
    (hb : ∀ mw ∈ layers, mw.throws = false ∧ mw.preOps = [])
    (hops : h.ops = []) (hthrows : h.throws = false) :
    (handleDelivery true layers h).events
        = chainEvs layers 0 ++ [PipeEvent.handlerRun, PipeEvent.broker BrokerEvent.ack]
      ∧ brokerEventsOf (handleDelivery true layers h).events = [BrokerEvent.ack]
      ∧ (handleDelivery true layers h).message.state = MessageState.acked := by
  have hinit : isHandled initialMessage = false := rfl
  have hrun := runLayers_benign h layers hb 0 initialMessage hinit
  rw [hops] at hrun
  simp only [applyOps, List.map_nil] at hrun
  have hack : applyOp TerminalOp.ack initialMessage
      = ({ state := MessageState.acked, replySent := false }, [BrokerEvent.ack]) := rfl
  simp only [handleDelivery, hrun, hthrows, Bool.false_eq_true, if_false, if_true, hack]
  refine ⟨by simp, ?_, by trivial⟩
  have hbc := brokerEventsOf_chainEvs layers 0
  simp only [brokerEventsOf] at hbc ⊢
  simp [List.filterMap_append, hbc]

/-- C4: when the pipeline run fails (the handler or any middleware throws)
and the message is not already handled, the delivery is nacked exactly once
with requeue = false: that nack is the only broker call of the delivery. -/
theorem c4_autoNack_on_failure (layers : List MWBehavior) (h : HandlerBehavior)
    (m1 : MsgModel) (evs : List PipeEvent)
    (hrun : runLayers h layers 0 initialMessage = (m1, evs, true))
    (hunh : isHandled m1 = false) :
    brokerEventsOf (handleDelivery true layers h).events = [BrokerEvent.nack false]
      ∧ (handleDelivery true layers h).message.state = MessageState.nacked false := by
  have hres : isHandled (runLayers h layers 0 initialMessage).1 = false := by
    rw [hrun]; exact hunh
  have hnb := runLayers_unhandled_no_broker h layers 0 initialMessage rfl hres
  rw [hrun] at hnb
  have hnack : applyOp (TerminalOp.nack false) m1
      = ({ state := MessageState.nacked false, replySent := m1.replySent },
          [BrokerEvent.nack false]) := by
    simp [applyOp, hunh]
  simp only [handleDelivery, hrun, if_true, hnack]
  refine ⟨?_, by trivial⟩
  simp only [brokerEventsOf] at hnb ⊢
  simp [List.filterMap_append, hnb]

/-- C5: in a pipeline of middleware that neither throws nor touches the
message, a layer that does not call `next` gets `next` invoked automatically
by the runtime exactly once (and never an explicit invocation); the user
handler and every layer of the chain still run. -/
theorem c5_auto_next_exactly_once (layers : List MWBehavior) (h : HandlerBehavior)
    (hb : ∀ mw ∈ layers, mw.throws = false ∧ mw.preOps = [])
    (k : Nat) (mw : MWBehavior) (hk : layers[k]? = some mw) (hnc : mw.callsNext = false) :
    countEv (PipeEvent.nextAuto k) (handleDelivery true layers h).events = 1
      ∧ countEv (PipeEvent.nextExplicit k) (handleDelivery true layers h).events = 0
      ∧ PipeEvent.handlerRun ∈ (handleDelivery true layers h).events
      ∧ ∀ j, j < layers.length →
          PipeEvent.mwStart j ∈ (handleDelivery true layers h).events := by
  have hinit : isHandled initialMessage = false := rfl
  have hrun := runLayers_benign h layers hb 0 initialMessage hinit
  obtain ⟨extra, hev⟩ := handleDelivery_events_shape true layers h
  rw [hrun] at hev
  simp only at hev
  obtain ⟨hc1, hc2⟩ := countEv_next_chainEvs layers 0 k mw hk hnc
  rw [Nat.zero_add] at hc1 hc2
  have hza : countEv (PipeEvent.nextAuto k)
      (PipeEvent.handlerRun :: ((applyOps h.ops initialMessage).2.map PipeEvent.broker
        ++ extra.map PipeEvent.broker)) = 0 := by
    apply countEv_eq_zero_of_not_mem
    simp
  have hze : countEv (PipeEvent.nextExplicit k)
      (PipeEvent.handlerRun :: ((applyOps h.ops initialMessage).2.map PipeEvent.broker
        ++ extra.map PipeEvent.broker)) = 0 := by
    apply countEv_eq_zero_of_not_mem
    simp
  refine ⟨?_, ?_, ?_, ?_⟩
  · rw [hev]
    simp only [List.cons_append, List.append_assoc]
    rw [countEv_append]
    simp only [List.cons_append] at hza
    omega
  · rw [hev]
    simp only [List.cons_append, List.append_assoc]
    rw [countEv_append]
    simp only [List.cons_append] at hze
    omega
  · rw [hev]
    simp
  · intro j hj
    rw [hev]
    have := mwStart_mem_chainEvs_of_lt layers 0 j hj
    rw [Nat.zero_add] at this
    simp [this]

/-- C6: when a middleware layer handles the message (performs a terminal
action) and then merely calls `next`, no downstream layer is entered and the
user handler never runs: the only layers entered are the handling layer and
the ones before it. -/
theorem c6_short_circuit_after_handled (pre post : List MWBehavior) (mw : MWBehavior)
    (h : HandlerBehavior)
    (hb : ∀ mw' ∈ pre, mw'.throws = false ∧ mw'.preOps = [])
    (hops : mw.preOps ≠ []) (ht : mw.throws = false) :
    PipeEvent.handlerRun ∉ (handleDelivery true (pre ++ mw :: post) h).events
      ∧ ∀ j, PipeEvent.mwStart j ∈ (handleDelivery true (pre ++ mw :: post) h).events
          → j ≤ pre.length := by
  have hinit : isHandled initialMessage = false := rfl
  have hh : isHandled (applyOps mw.preOps initialMessage).1 = true :=
    isHandled_applyOps_ne_nil mw.preOps initialMessage hops
  have hinner : runLayers h (mw :: post) (0 + pre.length) initialMessage
      = ((applyOps mw.preOps initialMessage).1,
          PipeEvent.mwStart (0 + pre.length)
            :: ((applyOps mw.preOps initialMessage).2.map PipeEvent.broker
              ++ (if mw.callsNext then [PipeEvent.nextExplicit (0 + pre.length)] else [])),
          false) := by
    simp only [runLayers, ht, Bool.false_eq_true, if_false, hh, if_true]
    simp
  have happ := runLayers_benign_append h pre (mw :: post) hb 0 initialMessage hinit
  rw [hinner] at happ
  dsimp only at happ
  have hev : (handleDelivery true (pre ++ mw :: post) h).events
      = chainEvs pre 0
          ++ PipeEvent.mwStart (0 + pre.length)
            :: ((applyOps mw.preOps initialMessage).2.map PipeEvent.broker
              ++ (if mw.callsNext then [PipeEvent.nextExplicit (0 + pre.length)] else [])) := by
    simp only [handleDelivery, happ, Bool.false_eq_true, if_false, if_true,
      applyOp_of_handled TerminalOp.ack _ hh]
    simp
  constructor
  · intro hmem
    rw [hev] at hmem
    rcases List.mem_append.1 hmem with hc | hc
    · exact handlerRun_not_mem_chainEvs pre 0 hc
    · rcases List.mem_cons.1 hc with h1 | h1
      · exact PipeEvent.noConfusion h1
      · rcases List.mem_append.1 h1 with h2 | h2
        · rcases List.mem_map.1 h2 with ⟨b, _, hb2⟩
          exact PipeEvent.noConfusion hb2
        · revert h2
          cases mw.callsNext <;> simp
  · intro j hj
    rw [hev] at hj
    rcases List.mem_append.1 hj with hc | hc
    · have := mwStart_mem_chainEvs_bound pre 0 j hc
      omega
    · rcases List.mem_cons.1 hc with h1 | h1
      · have hje : j = 0 + pre.length := by
          simpa using h1
        omega
      · rcases List.mem_append.1 h1 with h2 | h2
        · rcases List.mem_map.1 h2 with ⟨b, _, hb2⟩
          exact PipeEvent.noConfusion hb2
        · exfalso
          revert h2
          cases mw.callsNext <;> simp

/-- C7 counterexample: processing the delivery sequence {succeed, fail} does
NOT produce exactly the Backoff calls {take, pass, take, nack} (with or
without a trailing fail): the stub backoff also receives an `ack` call for
the auto-acked successful delivery, exactly as the integration suite asserts
(`expect(backoff.ack).to.have.been.calledOnce`). -/
theorem c7_exact_trace_counterexample :
    backoffTrace [true, false]
        ≠ [BackoffCall.take, BackoffCall.pass, BackoffCall.take, BackoffCall.nack]
      ∧ backoffTrace [true, false]
        ≠ [BackoffCall.take, BackoffCall.pass, BackoffCall.take, BackoffCall.nack,
            BackoffCall.fail] := by
  constructor <;> decide

/-- C7 amended: processing the delivery sequence {succeed, fail} produces
exactly the Backoff calls {take, ack, pass, take, nack, fail} in that order:
the successful auto-acked delivery reports `take`, `ack`, `pass`, and the
failed delivery reports `take`, `nack` and `fail`. -/
theorem c7_backoff_trace_amended :
    backoffTrace [true, false]
      = [BackoffCall.take, BackoffCall.ack, BackoffCall.pass,
          BackoffCall.take, BackoffCall.nack, BackoffCall.fail] := by
  decide

/- ## The `sum` RPC example (src/examples/rpc.ts) -/

/-- JavaScript `Array.prototype.reduce` without an initial value, as the sum
example's handler uses it: the first element seeds the accumulator and an
empty array raises a TypeError (modelled as `none`). -/
def jsReduce (f : α → α → α) : List α → Option α
  | [] => none
  | x :: xs => some (xs.foldl f x)

/-- The sum example's subscribe handler from src/examples/rpc.ts:
`(data) => data.reduce((acc, item) => acc + item)`. -/
def sumHandler (data : List Int) : Option Int :=
  jsReduce (fun acc item => acc + item) data

/-- Modelled from the spec: the RPC round trip on queue `sum` of
src/examples/rpc.ts. The publisher/reply-registry machinery (src/haredo.ts,
src/consumer.ts) is not among the sources; per the spec the caller receives
exactly the consumer handler's return value as the reply. -/
def rpcSum (payload : List Int) : Option Int := sumHandler payload

/-- C8: the `sum` RPC example replies 3 to the payload [0, 1, 2], and on
every delivered (nonempty) payload the reply is the left fold of addition
over the input array. -/
theorem c8_rpc_sum (x : Int) (xs : List Int) :
    rpcSum [0, 1, 2] = some 3
      ∧ rpcSum (x :: xs) = some (List.foldl (fun a b => a + b) 0 (x :: xs)) := by
  constructor
  · decide
  · simp [rpcSum, sumHandler, jsReduce, List.foldl_cons]

/-- Witness for C3 on a concrete pipeline: one benign middleware that calls
`next`, a handler with no terminal action. -/
theorem c3_autoAck_acks_exactly_once_witness :
    (∀ mw ∈ [({ preOps := [], callsNext := true, throws := false } : MWBehavior)],
        mw.throws = false ∧ mw.preOps = [])
      ∧ ((handleDelivery true [{ preOps := [], callsNext := true, throws := false }]
            { ops := [], throws := false }).events
          = chainEvs [{ preOps := [], callsNext := true, throws := false }] 0
              ++ [PipeEvent.handlerRun, PipeEvent.broker BrokerEvent.ack]
        ∧ brokerEventsOf
            (handleDelivery true [{ preOps := [], callsNext := true, throws := false }]
              { ops := [], throws := false }).events = [BrokerEvent.ack]
        ∧ (handleDelivery true [{ preOps := [], callsNext := true, throws := false }]
            { ops := [], throws := false }).message.state = MessageState.acked) :=
  ⟨by decide,
    c3_autoAck_acks_exactly_once
      [{ preOps := [], callsNext := true, throws := false }]
      { ops := [], throws := false } (by decide) rfl rfl⟩

/-- Witness for C4 on a concrete pipeline: no middleware, a handler that
throws without any terminal action. -/
theorem c4_autoNack_on_failure_witness :
    runLayers { ops := [], throws := true } [] 0 initialMessage
        = (initialMessage, [PipeEvent.handlerRun], true)
      ∧ isHandled initialMessage = false
      ∧ (brokerEventsOf (handleDelivery true [] { ops := [], throws := true }).events
            = [BrokerEvent.nack false]
        ∧ (handleDelivery true [] { ops := [], throws := true }).message.state
            = MessageState.nacked false) :=
  ⟨rfl, rfl,
    c4_autoNack_on_failure [] { ops := [], throws := true } initialMessage
      [PipeEvent.handlerRun] rfl rfl⟩

/-- Witness for C5 on a concrete pipeline: a single benign middleware that
does not call `next`; the runtime fires `nextAuto 0` exactly once and the
handler still runs. -/
theorem c5_auto_next_exactly_once_witness :
    ([({ preOps := [], callsNext := false, throws := false } : MWBehavior)][0]?
        = some { preOps := [], callsNext := false, throws := false })
      ∧ countEv (PipeEvent.nextAuto 0)
          (handleDelivery true [{ preOps := [], callsNext := false, throws := false }]
            { ops := [], throws := false }).events = 1
      ∧ countEv (PipeEvent.nextExplicit 0)
          (handleDelivery true [{ preOps := [], callsNext := false, throws := false }]
            { ops := [], throws := false }).events = 0
      ∧ PipeEvent.handlerRun
          ∈ (handleDelivery true [{ preOps := [], callsNext := false, throws := false }]
              { ops := [], throws := false }).events
      ∧ PipeEvent.mwStart 0
          ∈ (handleDelivery true [{ preOps := [], callsNext := false, throws := false }]
              { ops := [], throws := false }).events :=
  have ht := c5_auto_next_exactly_once
    [{ preOps := [], callsNext := false, throws := false }]
    { ops := [], throws := false } (by decide) 0
    { preOps := [], callsNext := false, throws := false } rfl rfl
  ⟨rfl, ht.1, ht.2.1, ht.2.2.1, ht.2.2.2 0 (by decide)⟩

/-- Witness for C6 on a concrete pipeline: the first middleware acks the
message and then calls `next`; the user handler never runs. -/
theorem c6_short_circuit_after_handled_witness :
    (({ preOps := [TerminalOp.ack], callsNext := true, throws := false } : MWBehavior).preOps
        ≠ [])
      ∧ PipeEvent.handlerRun
          ∉ (handleDelivery true
              ([] ++ { preOps := [TerminalOp.ack], callsNext := true, throws := false }
                :: [{ preOps := [], callsNext := true, throws := false }])
              { ops := [], throws := false }).events :=
  ⟨by decide,
    (c6_short_circuit_after_handled []
      [{ preOps := [], callsNext := true, throws := false }]
      { preOps := [TerminalOp.ack], callsNext := true, throws := false }
      { ops := [], throws := false } (by decide) (by decide) rfl).1⟩
